import Mathlib

/-!
Verification of the vanta-vuln-stats ingestion and change-tracking store.

This file shallowly embeds the core of the repository:

* `src/core/database.py` — `VulnerabilityDatabase.store_vulnerabilities`,
  `store_vulnerability_remediations`, `_flatten_data`, `_store_data_elements`,
  `_normalize_for_storage`;
* `src/core/api_client.py` — the paginated fetch loop of
  `VantaAPIClient.get_vulnerabilities` including its HTTP 429 handling;
* `src/vanta_vuln_stats.py` — the batch-buffering coordinator inside `main`;
* `src/core/stats.py` — the severity filter of
  `VulnerabilityStats.filter_vulnerabilities`;
* `src/lambda_handlers/utils/performance.py` —
  `exponential_backoff_with_jitter`.

JSON payloads are modelled as an inductive `Json` type (numbers as integers —
no claim depends on float arithmetic).  `json.dumps(v, sort_keys=True)` is
modelled by `canon`, SQLite tables by association lists keyed by the canonical
serialization of the id value, and the per-record SQL statements by pure
state-passing functions.
-/

set_option maxHeartbeats 1000000
set_option maxRecDepth 100000

namespace VantaVuln

/-- A JSON value as produced by `json.loads` (numbers restricted to integers). -/
inductive Json where
  | null : Json
  | bool : Bool → Json
  | num : Int → Json
  | str : String → Json
  | arr : List Json → Json
  | obj : List (String × Json) → Json
  deriving Repr

/-- A record as handled by the store: a parsed JSON object (a Python dict). -/
abbrev Rec := List (String × Json)

/-- Python truthiness (`if not vuln_id:` style tests) on JSON values. -/
def truthy : Json → Bool
  | .null => false
  | .bool b => b
  | .num n => n != 0
  | .str s => s != ""
  | .arr a => !a.isEmpty
  | .obj o => !o.isEmpty

/-- First-match lookup in a dict's field list (Python dicts have unique keys). -/
def lookupField : List (String × Json) → String → Option Json
  | [], _ => none
  | (k, v) :: rest, key => if k = key then some v else lookupField rest key

/-- `d.get(key)`: returns `none` both when the key is absent and when the
stored value is JSON `null` (Python `None`). -/
def pyGet (r : Rec) (key : String) : Option Json :=
  match lookupField r key with
  | some Json.null => none
  | some v => some v
  | none => none

/-- JSON string escaping as in `json.dumps` (quote and backslash; enough for
the payloads compared in this development). -/
def escapeChar (c : Char) : String :=
  if c = '"' then "\\\"" else if c = '\\' then "\\\\" else String.singleton c

def escapeString (s : String) : String :=
  String.join (s.toList.map escapeChar)

/-- Lexicographic code-point comparison of strings — the order Python uses
for both `<` on `str` and `sort_keys=True`. -/
def chListLt : List Char → List Char → Bool
  | [], [] => false
  | [], _ :: _ => true
  | _ :: _, [] => false
  | a :: as, b :: bs =>
      if a.toNat < b.toNat then true
      else if b.toNat < a.toNat then false
      else chListLt as bs

def strLt (a b : String) : Bool :=
  chListLt a.toList b.toList

/-- Insertion into a key-sorted list of rendered fields (Python
`sort_keys=True` sorts by code-point order). -/
def insertKV (p : String × String) : List (String × String) → List (String × String)
  | [] => [p]
  | q :: qs => if strLt p.1 q.1 then p :: q :: qs else q :: insertKV p qs

def sortKV : List (String × String) → List (String × String)
  | [] => []
  | p :: ps => insertKV p (sortKV ps)

/-- Render already-canonicalized fields with Python's default separators. -/
def joinKV : List (String × String) → String
  | [] => ""
  | [(k, s)] => "\"" ++ escapeString k ++ "\": " ++ s
  | (k, s) :: q :: qs => "\"" ++ escapeString k ++ "\": " ++ s ++ ", " ++ joinKV (q :: qs)

def joinVals : List String → String
  | [] => ""
  | [s] => s
  | s :: t :: ts => s ++ ", " ++ joinVals (t :: ts)

mutual
/-- `json.dumps(v, sort_keys=True)` with Python's default separators. -/
def canon : Json → String
  | .null => "null"
  | .bool true => "true"
  | .bool false => "false"
  | .num n => toString n
  | .str s => "\"" ++ escapeString s ++ "\""
  | .arr a => "[" ++ joinVals (canonList a) ++ "]"
  | .obj o => "\x7b" ++ joinKV (sortKV (canonFields o)) ++ "\x7d"

def canonList : List Json → List String
  | [] => []
  | x :: xs => canon x :: canonList xs

def canonFields : List (String × Json) → List (String × String)
  | [] => []
  | (k, v) :: rest => (k, canon v) :: canonFields rest
end

/-! ### Association-list model of the SQLite tables

Rows keyed by a primary key are modelled as `List (String × α)`; the key of a
record is the canonical serialization of its id value (distinct SQLite values
have distinct canonical forms).  `INSERT OR REPLACE` on the primary key is
`upsert`, `SELECT ... WHERE id = ?` is `alookup`. -/

def alookup {α : Type} : List (String × α) → String → Option α
  | [], _ => none
  | (k, v) :: rest, key => if k = key then some v else alookup rest key

def upsert {α : Type} : List (String × α) → String → α → List (String × α)
  | [], k, v => [(k, v)]
  | (k0, v0) :: rest, k, v =>
      if k0 = k then (k, v) :: rest else (k0, v0) :: upsert rest k v

/-- The id key under which a record is processed by the store: its `id` field
when present, non-null and truthy (`if not vuln_id: continue`), serialized. -/
def recKey (r : Rec) : Option String :=
  match pyGet r "id" with
  | some v => if truthy v then some (canon v) else none
  | none => none

/-! ### Payload flattening (`_flatten_data`, `_store_data_elements`) -/

mutual
/-- `VulnerabilityDatabase._flatten_data(data, parent_key)`. -/
def flattenData : Json → String → List (String × Json)
  | .obj fields, parent =>
      (if parent ≠ "" then [(parent, Json.obj fields)] else []) ++
        flattenObj fields parent
  | .arr items, parent =>
      (if parent ≠ "" then [(parent, Json.arr items)] else []) ++
        flattenArr items parent 0
  | v, parent => [(parent, v)]

def flattenObj : List (String × Json) → String → List (String × Json)
  | [], _ => []
  | (k, v) :: rest, parent =>
      flattenData v (if parent ≠ "" then parent ++ "." ++ k else k) ++
        flattenObj rest parent

def flattenArr : List Json → String → Nat → List (String × Json)
  | [], _, _ => []
  | v :: rest, parent, index =>
      flattenData v (parent ++ "[" ++ toString index ++ "]") ++
        flattenArr rest parent (index + 1)
end

/-- The data-element rows written for one record by `_store_data_elements`:
`[("__root__", data)] + _flatten_data(data)`, each value serialized by
`_normalize_for_storage` (= `json.dumps(·, sort_keys=True)`), inserted with
`INSERT OR REPLACE` on the `element_path` primary key (later rows win). -/
def dataElementsFor (data : Json) : List (String × String) :=
  (("__root__", canon data) :: (flattenData data "").map (fun p => (p.1, canon p.2))).foldl
    (fun acc p => upsert acc p.1 p.2) []

/-! ### The database state and `store_vulnerabilities` -/

/-- The columns of a `vulnerabilities` row that the store reads back:
`raw_data` (the record re-parsed from `json.dumps`) and the
`deactivate_metadata` column (set only when the incoming field was truthy). -/
structure VulnRow where
  raw_data : Json
  deactivate_metadata : Option Json
  deriving Repr

/-- One `vulnerability_history` (ChangeEvent) row, reduced to the columns the
claims speak about. -/
structure HistRow where
  vuln_id : String
  change_type : String
  deriving Repr, DecidableEq

/-- One `sync_history` (SyncRun) row. -/
structure SyncRow where
  vulnerabilities_count : Nat
  new_count : Nat
  updated_count : Nat
  remediated_count : Nat
  deriving Repr, DecidableEq

structure DB where
  vulns : List (String × VulnRow)
  rems : List (String × Json)
  dataElements : List (String × List (String × String))
  history : List HistRow
  syncHistory : List SyncRow
  deriving Repr

def DB.empty : DB := ⟨[], [], [], [], []⟩

/-- Key of a record's data-element set: `(record_type, record_id)`. -/
def deKey (recordType : String) (idKey : String) : String :=
  recordType ++ "|" ++ idKey

/-- Running counters inside one `store_vulnerabilities` call. -/
structure Counts where
  new : Nat
  updated : Nat
  remediated : Nat
  deriving Repr, DecidableEq

/-- The `deactivate_metadata` column value written for a record:
`json.dumps(vuln.get('deactivateMetadata')) if vuln.get('deactivateMetadata')
else None` (truthiness). -/
def dmColumn (vuln : Rec) : Option Json :=
  match pyGet vuln "deactivateMetadata" with
  | some d => if truthy d then some d else none
  | none => none

/-- The row `store_vulnerabilities` writes for a record. -/
def rowOf (vuln : Rec) : VulnRow :=
  { raw_data := Json.obj vuln, deactivate_metadata := dmColumn vuln }

/-- The loop body of `store_vulnerabilities` for one record (database.py
lines 258–346): skip falsy ids, read the existing row, classify the
transition, upsert the current-state row, replace the data elements, and
append a history row when tracking is on and a change type was assigned. -/
def storeVulnStep (trackChanges : Bool) (st : DB × Counts) (vuln : Rec) : DB × Counts :=
  match recKey vuln with
  | none => st
  | some idKey =>
    let db := st.1
    let counts := st.2
    let existing := alookup db.vulns idKey
    let classified : Option String × Counts :=
      match existing with
      | none => (some "discovered", { counts with new := counts.new + 1 })
      | some row =>
        let oldDeactivated := row.deactivate_metadata.isSome
        let newDeactivated := (pyGet vuln "deactivateMetadata").isSome
        if !oldDeactivated && newDeactivated then
          (some "remediated", { counts with remediated := counts.remediated + 1 })
        else if oldDeactivated && !newDeactivated then
          (some "reactivated", counts)
        else if canon row.raw_data ≠ canon (Json.obj vuln) then
          (some "updated", { counts with updated := counts.updated + 1 })
        else
          (none, counts)
    let db1 : DB :=
      { db with
        vulns := upsert db.vulns idKey (rowOf vuln)
        dataElements :=
          upsert db.dataElements (deKey "vulnerability" idKey)
            (dataElementsFor (Json.obj vuln)) }
    let db2 : DB :=
      match classified.1 with
      | some ct =>
          if trackChanges then
            { db1 with history := db1.history ++ [⟨idKey, ct⟩] }
          else db1
      | none => db1
    (db2, classified.2)

/-- What one `store_vulnerabilities` call returns. -/
structure StoreResult where
  new : Nat
  updated : Nat
  remediated : Nat
  total : Nat
  deriving Repr, DecidableEq

/-- `VulnerabilityDatabase.store_vulnerabilities(vulnerabilities,
track_changes)` (database.py lines 237–362). -/
def storeVulnerabilities (db : DB) (vulnerabilities : List Rec)
    (trackChanges : Bool) : DB × StoreResult :=
  let folded := vulnerabilities.foldl (storeVulnStep trackChanges) (db, ⟨0, 0, 0⟩)
  let db1 := folded.1
  let counts := folded.2
  let db2 :=
    { db1 with
      syncHistory := db1.syncHistory ++
        [⟨vulnerabilities.length, counts.new, counts.updated, counts.remediated⟩] }
  (db2, ⟨counts.new, counts.updated, counts.remediated, vulnerabilities.length⟩)

/-! ### `store_vulnerability_remediations` -/

structure RemResult where
  new : Nat
  updated : Nat
  total : Nat
  deriving Repr, DecidableEq

/-- The loop body of `store_vulnerability_remediations` for one record
(database.py lines 374–435). -/
def storeRemStep (st : DB × RemResult) (rem : Rec) : DB × RemResult :=
  match recKey rem with
  | none => st
  | some idKey =>
    let db := st.1
    let counts := st.2
    let existing := alookup db.rems idKey
    let counts1 : RemResult :=
      match existing with
      | none => { counts with new := counts.new + 1 }
      | some oldData =>
          if canon oldData ≠ canon (Json.obj rem) then
            { counts with updated := counts.updated + 1 }
          else counts
    let db1 : DB :=
      { db with
        rems := upsert db.rems idKey (Json.obj rem)
        dataElements :=
          upsert db.dataElements (deKey "vulnerability_remediation" idKey)
            (dataElementsFor (Json.obj rem)) }
    (db1, counts1)

/-- `VulnerabilityDatabase.store_vulnerability_remediations(remediations)`
(database.py lines 364–443). -/
def storeVulnerabilityRemediations (db : DB) (remediations : List Rec) :
    DB × RemResult :=
  let folded := remediations.foldl storeRemStep (db, ⟨0, 0, 0⟩)
  (folded.1, { folded.2 with total := remediations.length })

/-! ### Paginated fetch loop (`VantaAPIClient.get_vulnerabilities`)

The network is modelled as a script: one `PageResp` consumed per HTTP
request.  `Retry-After` headers arrive pre-parsed as `Option Nat`.  The loop
is given fuel; `none` models a loop that never reaches `hasNextPage = false`
(or a script shorter than the number of requests — a transport error, which
the claims do not touch). -/

inductive PageResp where
  | rate (retryAfter : Option Nat)
  | ok (data : List Rec) (hasNextPage : Bool) (endCursor : Option String)

/-- Observable trace of one `get_vulnerabilities` call. -/
structure FetchTrace where
  records : List Rec
  callbackCalls : List (List Rec)
  requestCursors : List (Option String)
  rateSleeps : List Nat
  deriving Repr

/-- The cursor parameter actually sent: `params["pageCursor"] = page_cursor`
only runs under `if page_cursor:` (truthiness). -/
def sentCursor (cursor : Option String) : Option String :=
  match cursor with
  | some c => if c = "" then none else some c
  | none => none

/-- The `while True` loop of `get_vulnerabilities` (api_client.py lines
69–127), with a batch callback always supplied. -/
def fetchGo : Nat → Option String → List PageResp → FetchTrace → Option FetchTrace
  | 0, _, _, _ => none
  | _ + 1, _, [], _ => none
  | fuel + 1, cursor, resp :: rest, tr =>
    let tr := { tr with requestCursors := tr.requestCursors ++ [sentCursor cursor] }
    match resp with
    | .rate retryAfter =>
        fetchGo fuel cursor rest
          { tr with rateSleeps := tr.rateSleeps ++ [retryAfter.getD 60] }
    | .ok data hasNextPage endCursor =>
        let tr :=
          { tr with
            records := tr.records ++ data
            callbackCalls :=
              if data.isEmpty then tr.callbackCalls else tr.callbackCalls ++ [data] }
        if hasNextPage then fetchGo fuel endCursor rest tr
        else some tr

/-- `get_vulnerabilities` with an empty starting cursor and trace. -/
def getVulnerabilities (fuel : Nat) (script : List PageResp) : Option FetchTrace :=
  fetchGo fuel none script ⟨[], [], [], []⟩

/-! ### Batch-write coordinator (`main` in vanta_vuln_stats.py)

The worker pool is modelled as the ordered list of submitted jobs; the final
aggregation step runs every job's store sequentially and sums the returned
counts (the sums are what `main` computes after `executor.shutdown`). -/

structure Coord where
  buffer : List Rec
  jobs : List (List Rec)
  deriving Repr

/-- `batch_callback` (vanta_vuln_stats.py lines 734–751): append the incoming
batch; if 100 or more records are buffered, submit exactly the first 100 as
one job and keep the remainder. -/
def batchCallback (c : Coord) (batch : List Rec) : Coord :=
  let buf := c.buffer ++ batch
  if buf.length ≥ 100 then
    { buffer := buf.drop 100, jobs := c.jobs ++ [buf.take 100] }
  else
    { buffer := buf, jobs := c.jobs }

/-- The final flush after fetching (lines 763–768): `if batch_buffer:` submit
whatever remains as one job. -/
def finalFlush (c : Coord) : Coord :=
  if c.buffer.isEmpty then c
  else { buffer := [], jobs := c.jobs ++ [c.buffer] }

/-- Aggregation over all submitted jobs (lines 779–785): run each store job
and sum `new`, `updated`, `remediated`, `total`. -/
def runJobs (db : DB) (jobs : List (List Rec)) : DB × StoreResult :=
  jobs.foldl
    (fun st job =>
      let r := storeVulnerabilities st.1 job true
      (r.1,
        ⟨st.2.new + r.2.new, st.2.updated + r.2.updated,
         st.2.remediated + r.2.remediated, st.2.total + r.2.total⟩))
    (db, ⟨0, 0, 0, 0⟩)

/-- 250 one-record batches, as in the claim's one-at-a-time feed. -/
def oneAtATime250 : List (List Rec) :=
  (List.range 250).map (fun i => [[("id", Json.num (Int.ofNat i + 1))]])

/-! ### Severity filter (`VulnerabilityStats.filter_vulnerabilities`) -/

/-- `str.upper()` on one character (ASCII range — all severity levels the
filter deals with, `CRITICAL/HIGH/MEDIUM/LOW`, are ASCII). -/
def upChar (c : Char) : Char :=
  if 97 ≤ c.toNat ∧ c.toNat ≤ 122 then Char.ofNat (c.toNat - 32) else c

/-- `str.upper()`. -/
def upStr (s : String) : String :=
  String.mk (s.toList.map upChar)

/-- The severity criterion pass (stats.py lines 87–90): under `if severity:`
the criterion entries are uppercased and a record is kept when its raw
`severity` value is a member of that uppercased list (`v.get('severity') in
severity_upper` — the record side is *not* uppercased; a non-string or
missing severity is never a member). -/
def severityPass (vulns : List Rec) (severity : List String) : List Rec :=
  if severity.isEmpty then vulns
  else
    let severityUpper := severity.map upStr
    vulns.filter (fun v =>
      match pyGet v "severity" with
      | some (Json.str s) => severityUpper.contains s
      | _ => false)

/-- The membership test the claim asserts: the record's severity field is a
member of the criterion set under case-insensitive comparison. -/
def severityMemberCI (v : Rec) (severity : List String) : Bool :=
  match pyGet v "severity" with
  | some (Json.str s) => severity.any (fun c => upStr s = upStr c)
  | _ => false

/-! ### Retry wrapper (`exponential_backoff_with_jitter`)

`func` is modelled as an outcome per attempt index; `random.uniform(0, d)` as
an oracle `draw : Nat → ℚ → ℚ` giving the value sampled before retry `n`,
with the interval endpoints it was called on recorded in the trace.  Delays
are rationals (the Python floats undergo only exact doublings and `min`). -/

structure RetryTrace where
  calls : Nat
  sleeps : List ℚ
  uniformArgs : List (ℚ × ℚ)
  deriving Repr, DecidableEq

/-- The `while retries <= max_retries` loop of
`exponential_backoff_with_jitter` (performance.py lines 170–193), at current
retry count `attempt` with `remaining = max_retries - attempt` retries left
(`remaining = 0` is exactly the code's `retries >= max_retries` re-raise). -/
def retryAux {α ε : Type} (outcome : Nat → Except ε α)
    (baseDelay maxDelay : ℚ) (jitter : Bool) (draw : Nat → ℚ → ℚ) :
    Nat → Nat → Except ε α × RetryTrace
  | attempt, remaining =>
    match outcome attempt with
    | .ok a => (.ok a, ⟨1, [], []⟩)
    | .error e =>
      match remaining with
      | 0 => (.error e, ⟨1, [], []⟩)
      | rem + 1 =>
        let delay := min (baseDelay * 2 ^ attempt) maxDelay
        let slept := if jitter then draw attempt delay else delay
        let rest := retryAux outcome baseDelay maxDelay jitter draw (attempt + 1) rem
        (rest.1,
          ⟨rest.2.calls + 1, slept :: rest.2.sleeps,
            (if jitter then [((0 : ℚ), delay)] else []) ++ rest.2.uniformArgs⟩)

/-- The wrapped function: start at `retries = 0` with `max_retries` retries
available. -/
def retryRun {α ε : Type} (outcome : Nat → Except ε α) (maxRetries : Nat)
    (baseDelay maxDelay : ℚ) (jitter : Bool) (draw : Nat → ℚ → ℚ) :
    Except ε α × RetryTrace :=
  retryAux outcome baseDelay maxDelay jitter draw 0 maxRetries

/-! ### Specification-side definitions used to state the claims -/

/-- Keys of an association-list table. -/
def keys {α : Type} (t : List (String × α)) : List String :=
  t.map Prod.fst

/-- The last record of a list whose processed id key is `k` — the "most
recently stored payload" for that id within one call. -/
def lastWith (vs : List Rec) (k : String) : Option Rec :=
  match vs with
  | [] => none
  | r :: rest =>
    match lastWith rest k with
    | some r2 => some r2
    | none => if recKey r = some k then some r else none

/-- The lifecycle classification exactly as the claim states it, in priority
order against the currently stored row. -/
def claimClassify (existing : Option VulnRow) (vuln : Rec) : Option String :=
  match existing with
  | none => some "discovered"
  | some row =>
      if row.deactivate_metadata.isNone ∧ (pyGet vuln "deactivateMetadata").isSome then
        some "remediated"
      else if row.deactivate_metadata.isSome ∧ (pyGet vuln "deactivateMetadata").isNone then
        some "reactivated"
      else if canon row.raw_data ≠ canon (Json.obj vuln) then
        some "updated"
      else
        none

/-- A record is idempotence-safe when its `deactivateMetadata` field, if
present and non-null, is truthy: the store tests truthiness when writing the
column (line 268) but `is not None` when classifying (line 278), and a
present-but-falsy value makes every resync re-report `remediated`. -/
def dmOk (r : Rec) : Prop :=
  match pyGet r "deactivateMetadata" with
  | some d => truthy d = true
  | none => True

instance (r : Rec) : Decidable (dmOk r) := by
  unfold dmOk
  cases pyGet r "deactivateMetadata" <;> infer_instance

/-- Counter increments as the claim assigns them to each change type. -/
def countsAfter (c : Counts) (ct : Option String) : Counts :=
  ⟨c.new + (if ct = some "discovered" then 1 else 0),
   c.updated + (if ct = some "updated" then 1 else 0),
   c.remediated + (if ct = some "remediated" then 1 else 0)⟩

/-- The history rows appended for one record: exactly one row carrying the
assigned change type when one was assigned and tracking is on. -/
def histAppend (trackChanges : Bool) (k : String) (ct : Option String) :
    List HistRow :=
  match ct with
  | some t => if trackChanges then [⟨k, t⟩] else []
  | none => []

end VantaVuln

namespace VantaVuln

/-! ## Lemmas about the association-list tables -/

theorem alookup_upsert_self {α : Type} (t : List (String × α)) (k : String) (v : α) :
    alookup (upsert t k v) k = some v := by
  induction t with
  | nil => simp [upsert, alookup]
  | cons p rest ih =>
    obtain ⟨k0, v0⟩ := p
    by_cases h : k0 = k
    · simp [upsert, h, alookup]
    · simp [upsert, h, alookup, ih]

theorem alookup_upsert_ne {α : Type} (t : List (String × α)) (k : String) (v : α)
    (k2 : String) (h : k2 ≠ k) : alookup (upsert t k v) k2 = alookup t k2 := by
  induction t with
  | nil => simp [upsert, alookup, Ne.symm h]
  | cons p rest ih =>
    obtain ⟨k0, v0⟩ := p
    by_cases h0 : k0 = k
    · subst h0
      simp [upsert, alookup, Ne.symm h]
    · simp [upsert, h0, alookup, ih]

theorem upsert_lookup_eq {α : Type} (t : List (String × α)) (k : String) (v : α)
    (h : alookup t k = some v) : upsert t k v = t := by
  induction t with
  | nil => simp [alookup] at h
  | cons p rest ih =>
    obtain ⟨k0, v0⟩ := p
    by_cases h0 : k0 = k
    · subst h0
      simp [alookup] at h
      simp [upsert, h]
    · simp [alookup, h0] at h
      simp [upsert, h0, ih h]

theorem keys_cons {α : Type} (k : String) (v : α) (t : List (String × α)) :
    keys ((k, v) :: t) = k :: keys t := rfl

theorem keys_upsert {α : Type} (t : List (String × α)) (k : String) (v : α) :
    keys (upsert t k v) = if k ∈ keys t then keys t else keys t ++ [k] := by
  induction t with
  | nil => simp [upsert, keys]
  | cons p rest ih =>
    obtain ⟨k0, v0⟩ := p
    by_cases h0 : k0 = k
    · subst h0
      simp [upsert, keys_cons]
    · rw [keys_cons]
      simp only [upsert, if_neg h0, keys_cons, ih]
      by_cases hm : k ∈ keys rest
      · simp [hm, List.mem_cons, Ne.symm h0]
      · simp [hm, List.mem_cons, Ne.symm h0]

theorem keys_upsert_nodup {α : Type} (t : List (String × α)) (k : String) (v : α)
    (h : (keys t).Nodup) : (keys (upsert t k v)).Nodup := by
  rw [keys_upsert]
  by_cases hm : k ∈ keys t
  · simpa [hm] using h
  · simp [hm, List.nodup_append, h]

end VantaVuln

namespace VantaVuln

theorem storeVulnStep_skip (tc : Bool) (st : DB × Counts) (vuln : Rec)
    (h : recKey vuln = none) : storeVulnStep tc st vuln = st := by
  simp [storeVulnStep, h]

theorem storeVulnStep_eq (tc : Bool) (db : DB) (c : Counts) (vuln : Rec)
    (k : String) (h : recKey vuln = some k) :
    storeVulnStep tc (db, c) vuln =
      ({ db with
          vulns := upsert db.vulns k (rowOf vuln)
          dataElements := upsert db.dataElements (deKey "vulnerability" k)
            (dataElementsFor (Json.obj vuln))
          history := db.history ++
            histAppend tc k (claimClassify (alookup db.vulns k) vuln) },
        countsAfter c (claimClassify (alookup db.vulns k) vuln)) := by
  simp only [storeVulnStep, h]
  cases hex : alookup db.vulns k with
  | none =>
    cases tc <;> simp [claimClassify, countsAfter, histAppend, rowOf]
  | some row =>
    cases hdmo : row.deactivate_metadata with
    | none =>
      cases hdmn : pyGet vuln "deactivateMetadata" with
      | none =>
        by_cases hc : canon row.raw_data = canon (Json.obj vuln) <;> cases tc <;>
          simp [claimClassify, countsAfter, histAppend, rowOf, hdmo, hdmn, hc]
      | some d =>
        cases tc <;> simp [claimClassify, countsAfter, histAppend, rowOf, hdmo, hdmn]
    | some d0 =>
      cases hdmn : pyGet vuln "deactivateMetadata" with
      | none =>
        cases tc <;> simp [claimClassify, countsAfter, histAppend, rowOf, hdmo, hdmn]
      | some d =>
        by_cases hc : canon row.raw_data = canon (Json.obj vuln) <;> cases tc <;>
          simp [claimClassify, countsAfter, histAppend, rowOf, hdmo, hdmn, hc]

end VantaVuln

namespace VantaVuln

theorem fold_vulns_lookup (tc : Bool) (vs : List Rec) :
    ∀ (db : DB) (c : Counts) (k : String),
      alookup ((vs.foldl (storeVulnStep tc) (db, c)).1.vulns) k =
        (match lastWith vs k with
         | some r => some (rowOf r)
         | none => alookup db.vulns k) := by
  induction vs with
  | nil => intro db c k; simp [lastWith]
  | cons r rest ih =>
    intro db c k
    rw [List.foldl_cons]
    cases hr : recKey r with
    | none =>
      rw [storeVulnStep_skip tc (db, c) r hr, ih]
      cases hl : lastWith rest k <;> simp [lastWith, hl, hr]
    | some k0 =>
      rw [storeVulnStep_eq tc db c r k0 hr, ih]
      cases hl : lastWith rest k with
      | some r2 => simp [lastWith, hl]
      | none =>
        simp only [lastWith, hl, hr]
        by_cases hk : k0 = k
        · subst hk
          simp [alookup_upsert_self]
        · simp [hk, alookup_upsert_ne db.vulns k0 (rowOf r) k (fun hh => hk hh.symm)]

theorem fold_vulns_nodup (tc : Bool) (vs : List Rec) :
    ∀ (db : DB) (c : Counts), (keys db.vulns).Nodup →
      (keys ((vs.foldl (storeVulnStep tc) (db, c)).1.vulns)).Nodup := by
  induction vs with
  | nil => intro db c h; simpa using h
  | cons r rest ih =>
    intro db c h
    rw [List.foldl_cons]
    cases hr : recKey r with
    | none => rw [storeVulnStep_skip tc (db, c) r hr]; exact ih db c h
    | some k0 =>
      rw [storeVulnStep_eq tc db c r k0 hr]
      exact ih _ _ (keys_upsert_nodup db.vulns k0 (rowOf r) h)

theorem store_vulns_lookup (db : DB) (vs : List Rec) (tc : Bool) (k : String) :
    alookup ((storeVulnerabilities db vs tc).1.vulns) k =
      (match lastWith vs k with
       | some r => some (rowOf r)
       | none => alookup db.vulns k) := by
  simpa [storeVulnerabilities] using fold_vulns_lookup tc vs db ⟨0, 0, 0⟩ k

theorem store_vulns_nodup (db : DB) (vs : List Rec) (tc : Bool)
    (h : (keys db.vulns).Nodup) :
    (keys ((storeVulnerabilities db vs tc).1.vulns)).Nodup := by
  simpa [storeVulnerabilities] using fold_vulns_nodup tc vs db ⟨0, 0, 0⟩ h

end VantaVuln

namespace VantaVuln

theorem lastWith_mem (k : String) (vs : List Rec) :
    ∀ r : Rec, lastWith vs k = some r → r ∈ vs ∧ recKey r = some k := by
  induction vs with
  | nil => intro r h; simp [lastWith] at h
  | cons x rest ih =>
    intro r h
    simp only [lastWith] at h
    cases hl : lastWith rest k with
    | some r2 =>
      rw [hl] at h
      obtain ⟨hm, hk⟩ := ih r2 hl
      obtain rfl : r2 = r := by injection h
      exact ⟨List.mem_cons_of_mem x hm, hk⟩
    | none =>
      rw [hl] at h
      by_cases hx : recKey x = some k
      · rw [if_pos hx] at h
        obtain rfl : x = r := by injection h
        exact ⟨List.mem_cons_self _ _, hx⟩
      · rw [if_neg hx] at h
        exact absurd h (by simp)

theorem lastWith_unique (k : String) (vs : List Rec) (r : Rec)
    (hnd : (vs.filterMap recKey).Nodup) (hr : r ∈ vs) (hk : recKey r = some k) :
    lastWith vs k = some r := by
  induction vs with
  | nil => simp at hr
  | cons x rest ih =>
    rcases List.mem_cons.mp hr with heq | hmem
    · subst heq
      have hknotin : k ∉ rest.filterMap recKey := by
        intro hin
        simp only [List.filterMap_cons, hk] at hnd
        exact (List.nodup_cons.mp hnd).1 hin
      have hnone : lastWith rest k = none := by
        cases hl : lastWith rest k with
        | none => rfl
        | some r2 =>
          obtain ⟨hm2, hk2⟩ := lastWith_mem k rest r2 hl
          exact absurd (List.mem_filterMap.mpr ⟨r2, hm2, hk2⟩) hknotin
      simp [lastWith, hnone, hk]
    · have hndrest : (rest.filterMap recKey).Nodup := by
        cases hx : recKey x with
        | none => simpa only [List.filterMap_cons, hx] using hnd
        | some k0 =>
          simp only [List.filterMap_cons, hx] at hnd
          exact (List.nodup_cons.mp hnd).2
      have hlast := ih hndrest hmem
      simp [lastWith, hlast]

theorem storeVulnStep_noop (tc : Bool) (db : DB) (c : Counts) (r : Rec) (k : String)
    (hk : recKey r = some k) (hrow : alookup db.vulns k = some (rowOf r))
    (hdm : dmOk r) :
    (storeVulnStep tc (db, c) r).1.vulns = db.vulns ∧
      (storeVulnStep tc (db, c) r).1.history = db.history ∧
      (storeVulnStep tc (db, c) r).2 = c := by
  rw [storeVulnStep_eq tc db c r k hk, hrow]
  have hct : claimClassify (some (rowOf r)) r = none := by
    unfold claimClassify dmOk at *
    cases hdmn : pyGet r "deactivateMetadata" with
    | none => simp [rowOf, dmColumn, hdmn]
    | some d =>
      rw [hdmn] at hdm
      simp [rowOf, dmColumn, hdmn, hdm]
  rw [hct]
  refine ⟨upsert_lookup_eq db.vulns k (rowOf r) hrow, ?_, ?_⟩
  · simp [histAppend]
  · simp [countsAfter]

theorem fold_noop (tc : Bool) (vs : List Rec) :
    ∀ (db : DB) (c : Counts),
      (∀ r ∈ vs, recKey r = none ∨
        ∃ k, recKey r = some k ∧ alookup db.vulns k = some (rowOf r) ∧ dmOk r) →
      (vs.foldl (storeVulnStep tc) (db, c)).1.vulns = db.vulns ∧
        (vs.foldl (storeVulnStep tc) (db, c)).1.history = db.history ∧
        (vs.foldl (storeVulnStep tc) (db, c)).2 = c := by
  induction vs with
  | nil => intro db c _; simp
  | cons r rest ih =>
    intro db c hall
    rw [List.foldl_cons]
    rcases hall r (List.mem_cons_self r rest) with hr | ⟨k, hk, hrow, hdm⟩
    · rw [storeVulnStep_skip tc (db, c) r hr]
      exact ih db c (fun r2 h2 => hall r2 (List.mem_cons_of_mem r h2))
    · obtain ⟨hv, hh, hc⟩ := storeVulnStep_noop tc db c r k hk hrow hdm
      set st := storeVulnStep tc (db, c) r with hst
      have hpair : st = (st.1, st.2) := rfl
      have hrest := ih st.1 st.2 (by
        intro r2 h2
        rcases hall r2 (List.mem_cons_of_mem r h2) with h | ⟨k2, hk2, hrow2, hdm2⟩
        · exact Or.inl h
        · exact Or.inr ⟨k2, hk2, by rw [hv]; exact hrow2, hdm2⟩)
      rw [hpair] at *
      refine ⟨?_, ?_, ?_⟩
      · rw [hrest.1, hv]
      · rw [hrest.2.1, hh]
      · rw [hrest.2.2, hc]

end VantaVuln

namespace VantaVuln

theorem storeRemStep_skip (st : DB × RemResult) (rem : Rec)
    (h : recKey rem = none) : storeRemStep st rem = st := by
  simp [storeRemStep, h]

theorem storeRemStep_eq (db : DB) (c : RemResult) (rem : Rec) (k : String)
    (h : recKey rem = some k) :
    storeRemStep (db, c) rem =
      ({ db with
          rems := upsert db.rems k (Json.obj rem)
          dataElements := upsert db.dataElements (deKey "vulnerability_remediation" k)
            (dataElementsFor (Json.obj rem)) },
        match alookup db.rems k with
        | none => { c with new := c.new + 1 }
        | some oldData =>
            if canon oldData ≠ canon (Json.obj rem) then
              { c with updated := c.updated + 1 }
            else c) := by
  simp only [storeRemStep, h]

theorem fold_rems_lookup (rs : List Rec) :
    ∀ (db : DB) (c : RemResult) (k : String),
      alookup ((rs.foldl storeRemStep (db, c)).1.rems) k =
        (match lastWith rs k with
         | some r => some (Json.obj r)
         | none => alookup db.rems k) := by
  induction rs with
  | nil => intro db c k; simp [lastWith]
  | cons r rest ih =>
    intro db c k
    rw [List.foldl_cons]
    cases hr : recKey r with
    | none =>
      rw [storeRemStep_skip (db, c) r hr, ih]
      cases hl : lastWith rest k <;> simp [lastWith, hl, hr]
    | some k0 =>
      rw [storeRemStep_eq db c r k0 hr, ih]
      cases hl : lastWith rest k with
      | some r2 => simp [lastWith, hl]
      | none =>
        simp only [lastWith, hl, hr]
        by_cases hk : k0 = k
        · subst hk
          simp [alookup_upsert_self]
        · simp [hk, alookup_upsert_ne db.rems k0 (Json.obj r) k (fun hh => hk hh.symm)]

theorem fold_rems_nodup (rs : List Rec) :
    ∀ (db : DB) (c : RemResult), (keys db.rems).Nodup →
      (keys ((rs.foldl storeRemStep (db, c)).1.rems)).Nodup := by
  induction rs with
  | nil => intro db c h; simpa using h
  | cons r rest ih =>
    intro db c h
    rw [List.foldl_cons]
    cases hr : recKey r with
    | none => rw [storeRemStep_skip (db, c) r hr]; exact ih db c h
    | some k0 =>
      rw [storeRemStep_eq db c r k0 hr]
      exact ih _ _ (keys_upsert_nodup db.rems k0 (Json.obj r) h)

theorem store_rems_lookup (db : DB) (rs : List Rec) (k : String) :
    alookup ((storeVulnerabilityRemediations db rs).1.rems) k =
      (match lastWith rs k with
       | some r => some (Json.obj r)
       | none => alookup db.rems k) := by
  simpa [storeVulnerabilityRemediations] using fold_rems_lookup rs db ⟨0, 0, 0⟩ k

theorem store_rems_nodup (db : DB) (rs : List Rec)
    (h : (keys db.rems).Nodup) :
    (keys ((storeVulnerabilityRemediations db rs).1.rems)).Nodup := by
  simpa [storeVulnerabilityRemediations] using fold_rems_nodup rs db ⟨0, 0, 0⟩ h

theorem store_vulns_rems_eq (db : DB) (vs : List Rec) (tc : Bool) :
    (storeVulnerabilities db vs tc).1.rems = db.rems := by
  have haux : ∀ (vsx : List Rec) (d : DB) (c : Counts),
      (vsx.foldl (storeVulnStep tc) (d, c)).1.rems = d.rems := by
    intro vsx
    induction vsx with
    | nil => intro d c; rfl
    | cons r rest ih =>
      intro d c
      rw [List.foldl_cons]
      cases hr : recKey r with
      | none => rw [storeVulnStep_skip tc (d, c) r hr]; exact ih d c
      | some k0 => rw [storeVulnStep_eq tc d c r k0 hr]; exact ih _ _
  simpa [storeVulnerabilities] using haux vs db ⟨0, 0, 0⟩

theorem store_rems_vulns_eq (db : DB) (rs : List Rec) :
    (storeVulnerabilityRemediations db rs).1.vulns = db.vulns := by
  have haux : ∀ (rsx : List Rec) (d : DB) (c : RemResult),
      (rsx.foldl storeRemStep (d, c)).1.vulns = d.vulns := by
    intro rsx
    induction rsx with
    | nil => intro d c; rfl
    | cons r rest ih =>
      intro d c
      rw [List.foldl_cons]
      cases hr : recKey r with
      | none => rw [storeRemStep_skip (d, c) r hr]; exact ih d c
      | some k0 => rw [storeRemStep_eq d c r k0 hr]; exact ih _ _
  simpa [storeVulnerabilityRemediations] using haux rs db ⟨0, 0, 0⟩

end VantaVuln

namespace VantaVuln

theorem fold_vulns_syncHistory (tc : Bool) (vs : List Rec) :
    ∀ (db : DB) (c : Counts),
      (vs.foldl (storeVulnStep tc) (db, c)).1.syncHistory = db.syncHistory := by
  induction vs with
  | nil => intro db c; rfl
  | cons r rest ih =>
    intro db c
    rw [List.foldl_cons]
    cases hr : recKey r with
    | none => rw [storeVulnStep_skip tc (db, c) r hr]; exact ih db c
    | some k0 => rw [storeVulnStep_eq tc db c r k0 hr]; exact ih _ _

theorem runJobs_total (db : DB) (jobs : List (List Rec)) :
    (runJobs db jobs).2.total = (jobs.map List.length).sum := by
  suffices haux : ∀ (jobs2 : List (List Rec)) (d : DB) (t : StoreResult),
      ((jobs2.foldl
          (fun st job =>
            let r := storeVulnerabilities st.1 job true
            (r.1,
              ⟨st.2.new + r.2.new, st.2.updated + r.2.updated,
               st.2.remediated + r.2.remediated, st.2.total + r.2.total⟩))
          (d, t)).2.total)
        = t.total + (jobs2.map List.length).sum by
    simpa [runJobs] using haux jobs db ⟨0, 0, 0, 0⟩
  intro jobs2
  induction jobs2 with
  | nil => intro d t; simp
  | cons j rest ih =>
    intro d t
    rw [List.foldl_cons, ih]
    simp [storeVulnerabilities]
    omega

theorem retryAux_all_fail {α ε : Type} (outcome : Nat → Except ε α) (errs : Nat → ε)
    (hfail : ∀ n, outcome n = Except.error (errs n)) (b M : ℚ) (j : Bool)
    (draw : Nat → ℚ → ℚ) :
    ∀ (remaining attempt : Nat),
      retryAux outcome b M j draw attempt remaining =
        (Except.error (errs (attempt + remaining)),
          ⟨remaining + 1,
            (List.range' attempt remaining).map
              (fun n => if j then draw n (min (b * 2 ^ n) M) else min (b * 2 ^ n) M),
            if j then
              (List.range' attempt remaining).map (fun n => ((0 : ℚ), min (b * 2 ^ n) M))
            else []⟩) := by
  intro remaining
  induction remaining with
  | zero =>
    intro attempt
    rw [retryAux, hfail attempt]
    cases j <;> simp
  | succ rem ih =>
    intro attempt
    rw [retryAux, hfail attempt]
    simp only [ih (attempt + 1)]
    have hcalls : rem + 1 + 1 = rem + 2 := rfl
    have hrange : List.range' attempt (rem + 1) = attempt :: List.range' (attempt + 1) rem :=
      List.range'_succ attempt rem 1
    have herr : attempt + (rem + 1) = attempt + 1 + rem := by omega
    cases j <;> simp [hrange, herr]

theorem retryAux_calls_le {α ε : Type} (outcome : Nat → Except ε α) (b M : ℚ)
    (j : Bool) (draw : Nat → ℚ → ℚ) :
    ∀ (remaining attempt : Nat),
      (retryAux outcome b M j draw attempt remaining).2.calls ≤ remaining + 1 := by
  intro remaining
  induction remaining with
  | zero =>
    intro attempt
    rw [retryAux]
    cases outcome attempt <;> simp
  | succ rem ih =>
    intro attempt
    rw [retryAux]
    cases outcome attempt with
    | ok a => simp
    | error e =>
      have := ih (attempt + 1)
      simpa using Nat.add_le_add_right this 1

end VantaVuln

namespace VantaVuln

theorem batchCallback_under (c : Coord) (batch : List Rec)
    (h : (c.buffer ++ batch).length < 100) :
    batchCallback c batch = ⟨c.buffer ++ batch, c.jobs⟩ := by
  unfold batchCallback
  rw [if_neg (by omega)]

theorem batchCallback_exact (c : Coord) (batch : List Rec)
    (h : (c.buffer ++ batch).length = 100) :
    batchCallback c batch = ⟨[], c.jobs ++ [c.buffer ++ batch]⟩ := by
  unfold batchCallback
  rw [if_pos (by omega)]
  have hdrop : (c.buffer ++ batch).drop 100 = [] := by
    rw [List.drop_eq_nil_iff]
    omega
  have htake : (c.buffer ++ batch).take 100 = c.buffer ++ batch := by
    rw [List.take_of_length_le]
    omega
  rw [hdrop, htake]

theorem flatten_length_ones (bs : List (List Rec)) (hs : ∀ x ∈ bs, x.length = 1) :
    bs.flatten.length = bs.length := by
  induction bs with
  | nil => rfl
  | cons x rest ih =>
    simp only [List.flatten_cons, List.length_append, List.length_cons]
    rw [hs x (List.mem_cons_self x rest),
      ih (fun y hy => hs y (List.mem_cons_of_mem x hy))]
    omega

theorem feed_under (bs : List (List Rec)) :
    ∀ c : Coord, (∀ x ∈ bs, x.length = 1) → c.buffer.length + bs.length < 100 →
      bs.foldl batchCallback c = ⟨c.buffer ++ bs.flatten, c.jobs⟩ := by
  induction bs with
  | nil => intro c _ _; simp
  | cons x rest ih =>
    intro c hs hlt
    simp only [List.length_cons] at hlt
    rw [List.foldl_cons]
    have hx : x.length = 1 := hs x (List.mem_cons_self x rest)
    rw [batchCallback_under c x (by simp only [List.length_append, hx]; omega)]
    rw [ih ⟨c.buffer ++ x, c.jobs⟩ (fun y hy => hs y (List.mem_cons_of_mem x hy))
      (by simp only [List.length_append, hx]; omega)]
    simp

theorem feed_fill (bs : List (List Rec)) :
    ∀ c : Coord, (∀ x ∈ bs, x.length = 1) → c.buffer.length + bs.length = 100 →
      0 < bs.length →
      bs.foldl batchCallback c = ⟨[], c.jobs ++ [c.buffer ++ bs.flatten]⟩ := by
  induction bs with
  | nil => intro c _ _ hpos; simp at hpos
  | cons x rest ih =>
    intro c hs hsum hpos
    simp only [List.length_cons] at hsum
    rw [List.foldl_cons]
    have hx : x.length = 1 := hs x (List.mem_cons_self x rest)
    cases hrest : rest with
    | nil =>
      subst hrest
      simp only [List.length_nil] at hsum
      rw [batchCallback_exact c x (by simp only [List.length_append, hx]; omega)]
      simp
    | cons y ys =>
      have hrestpos : 0 < rest.length := by rw [hrest]; simp
      rw [← hrest]
      rw [batchCallback_under c x
        (by simp only [List.length_append, hx]; omega)]
      rw [ih ⟨c.buffer ++ x, c.jobs⟩ (fun z hz => hs z (List.mem_cons_of_mem x hz))
        (by simp only [List.length_append, hx]; omega) hrestpos]
      simp

end VantaVuln

namespace VantaVuln

theorem feed250_shape (bs : List (List Rec)) (hlen : bs.length = 250)
    (hs : ∀ x ∈ bs, x.length = 1) :
    (finalFlush (bs.foldl batchCallback ⟨[], []⟩)).jobs.map List.length =
        [100, 100, 50] ∧
      (runJobs DB.empty (finalFlush (bs.foldl batchCallback ⟨[], []⟩)).jobs).2.total =
        250 := by
  have hbs : bs = bs.take 100 ++ ((bs.drop 100).take 100 ++ (bs.drop 100).drop 100) := by
    rw [List.take_append_drop, List.take_append_drop]
  have hA : (bs.take 100).length = 100 := by
    rw [List.length_take, hlen]
    decide
  have hD : (bs.drop 100).length = 150 := by
    rw [List.length_drop, hlen]
  have hB : ((bs.drop 100).take 100).length = 100 := by
    rw [List.length_take, hD]
    decide
  have hC : ((bs.drop 100).drop 100).length = 50 := by
    rw [List.length_drop, hD]
  have hsA : ∀ x ∈ bs.take 100, x.length = 1 :=
    fun x hx => hs x (List.take_subset 100 bs hx)
  have hsB : ∀ x ∈ (bs.drop 100).take 100, x.length = 1 :=
    fun x hx => hs x (List.drop_subset 100 bs (List.take_subset 100 (bs.drop 100) hx))
  have hsC : ∀ x ∈ (bs.drop 100).drop 100, x.length = 1 :=
    fun x hx => hs x (List.drop_subset 100 bs (List.drop_subset 100 (bs.drop 100) hx))
  have hfold : bs.foldl batchCallback ⟨[], []⟩ =
      ⟨((bs.drop 100).drop 100).flatten,
        [(bs.take 100).flatten, ((bs.drop 100).take 100).flatten]⟩ := by
    conv_lhs => rw [hbs]
    rw [List.foldl_append, List.foldl_append]
    rw [feed_fill (bs.take 100) ⟨[], []⟩ hsA (by simp [hA]) (by omega)]
    rw [feed_fill ((bs.drop 100).take 100) _ hsB (by simp [hB]) (by omega)]
    rw [feed_under ((bs.drop 100).drop 100) _ hsC (by simp [hC]; omega)]
    simp
  have hCflat : ((bs.drop 100).drop 100).flatten.length = 50 := by
    rw [flatten_length_ones _ hsC, hC]
  have hflush : finalFlush (bs.foldl batchCallback ⟨[], []⟩) =
      ⟨[], [(bs.take 100).flatten, ((bs.drop 100).take 100).flatten,
            ((bs.drop 100).drop 100).flatten]⟩ := by
    rw [hfold]
    unfold finalFlush
    rw [if_neg (by
      intro hempty
      simp only [List.isEmpty_iff] at hempty
      rw [hempty] at hCflat
      simp at hCflat)]
    rfl
  rw [hflush]
  constructor
  · simp only [List.map_cons, List.map_nil]
    rw [flatten_length_ones _ hsA, flatten_length_ones _ hsB, flatten_length_ones _ hsC,
      hA, hB, hC]
  · rw [runJobs_total]
    simp only [List.map_cons, List.map_nil]
    rw [flatten_length_ones _ hsA, flatten_length_ones _ hsB, flatten_length_ones _ hsC,
      hA, hB, hC]
    rfl

/-- Claim C1: for every record with a truthy id stored by
`store_vulnerabilities` with `track_changes=True`, the lifecycle transition
is classified in priority order against the currently stored row
(`claimClassify`), exactly one `vulnerability_history` row carrying the
assigned change type is appended when a type was assigned and none
otherwise (`histAppend`), and exactly the claimed counter is incremented
(`countsAfter`). -/
theorem claim_C1 (db : DB) (c : Counts) (vuln : Rec) (k : String)
    (h : recKey vuln = some k) :
    (storeVulnStep true (db, c) vuln).1.history =
        db.history ++ histAppend true k (claimClassify (alookup db.vulns k) vuln) ∧
      (storeVulnStep true (db, c) vuln).2 =
        countsAfter c (claimClassify (alookup db.vulns k) vuln) := by
  rw [storeVulnStep_eq true db c vuln k h]
  exact ⟨rfl, rfl⟩

/-- Witness for C1 at a concrete fresh record. -/
theorem claim_C1_witness :
    recKey [("id", Json.str "a")] = some "\"a\"" ∧
      ((storeVulnStep true (DB.empty, ⟨0, 0, 0⟩) [("id", Json.str "a")]).1.history =
          DB.empty.history ++
            histAppend true "\"a\""
              (claimClassify (alookup DB.empty.vulns "\"a\"") [("id", Json.str "a")]) ∧
        (storeVulnStep true (DB.empty, ⟨0, 0, 0⟩) [("id", Json.str "a")]).2 =
          countsAfter ⟨0, 0, 0⟩
            (claimClassify (alookup DB.empty.vulns "\"a\"") [("id", Json.str "a")])) :=
  ⟨by decide, claim_C1 DB.empty ⟨0, 0, 0⟩ [("id", Json.str "a")] "\"a\"" (by decide)⟩


/-- Claim C2 fails as stated: re-storing the identical list
`[{id x, v 1}, {id x, v 2}]` (a duplicate id with differing payloads) makes
the second call report `updated = 2` and append two further history rows. -/
theorem claim_C2_counterexample :
    (storeVulnerabilities
          (storeVulnerabilities DB.empty
            [[("id", Json.str "x"), ("v", Json.num 1)],
             [("id", Json.str "x"), ("v", Json.num 2)]] true).1
          [[("id", Json.str "x"), ("v", Json.num 1)],
           [("id", Json.str "x"), ("v", Json.num 2)]] true).2.updated = 2 ∧
      (storeVulnerabilities
          (storeVulnerabilities DB.empty
            [[("id", Json.str "x"), ("v", Json.num 1)],
             [("id", Json.str "x"), ("v", Json.num 2)]] true).1
          [[("id", Json.str "x"), ("v", Json.num 1)],
           [("id", Json.str "x"), ("v", Json.num 2)]] true).1.history.length =
        (storeVulnerabilities DB.empty
          [[("id", Json.str "x"), ("v", Json.num 1)],
           [("id", Json.str "x"), ("v", Json.num 2)]] true).1.history.length + 2 :=
  ⟨by decide, by decide⟩

/-- Claim C2, amended: for a list in which no two records share a truthy id
and every present non-null `deactivateMetadata` is truthy, storing the
identical list twice yields `updated = 0` on the second call and appends no
`vulnerability_history` rows during it. -/
theorem claim_C2 (db : DB) (vs : List Rec)
    (hids : (vs.filterMap recKey).Nodup) (hdm : ∀ r ∈ vs, dmOk r) :
    (storeVulnerabilities (storeVulnerabilities db vs true).1 vs true).2.updated = 0 ∧
      (storeVulnerabilities (storeVulnerabilities db vs true).1 vs true).1.history =
        (storeVulnerabilities db vs true).1.history := by
  set db1 := (storeVulnerabilities db vs true).1 with hdb1
  have hhyp : ∀ r ∈ vs, recKey r = none ∨
      ∃ k, recKey r = some k ∧ alookup db1.vulns k = some (rowOf r) ∧ dmOk r := by
    intro r hrmem
    cases hk : recKey r with
    | none => exact Or.inl rfl
    | some k =>
      refine Or.inr ⟨k, rfl, ?_, hdm r hrmem⟩
      rw [hdb1, store_vulns_lookup db vs true k,
        lastWith_unique k vs r hids hrmem hk]
  obtain ⟨hvulns, hhist, hcounts⟩ := fold_noop true vs db1 ⟨0, 0, 0⟩ hhyp
  constructor
  · simp [storeVulnerabilities, hcounts]
  · simp [storeVulnerabilities, hhist]

/-- Witness for the amended C2 on a one-record list. -/
theorem claim_C2_witness :
    ((([[("id", Json.str "w")]] : List Rec).filterMap recKey).Nodup ∧
        ∀ r ∈ ([[("id", Json.str "w")]] : List Rec), dmOk r) ∧
      ((storeVulnerabilities
            (storeVulnerabilities DB.empty [[("id", Json.str "w")]] true).1
            [[("id", Json.str "w")]] true).2.updated = 0 ∧
        (storeVulnerabilities
            (storeVulnerabilities DB.empty [[("id", Json.str "w")]] true).1
            [[("id", Json.str "w")]] true).1.history =
          (storeVulnerabilities DB.empty [[("id", Json.str "w")]] true).1.history) :=
  ⟨⟨by decide, by decide⟩,
    claim_C2 DB.empty [[("id", Json.str "w")]] (by decide) (by decide)⟩


/-- Claim C3: starting from tables with no duplicate keys, both store
operations preserve one-row-per-id, the vulnerability row under a key is the
most recently stored payload for that id (`lastWith`, wrapped in `rowOf`),
the remediation row likewise, and neither operation touches the other's
table. -/
theorem claim_C3 (db : DB) (vs rs : List Rec) (tc : Bool) (k : String)
    (hv : (keys db.vulns).Nodup) (hr : (keys db.rems).Nodup) :
    (keys ((storeVulnerabilities db vs tc).1.vulns)).Nodup ∧
      alookup ((storeVulnerabilities db vs tc).1.vulns) k =
        (match lastWith vs k with
         | some r => some (rowOf r)
         | none => alookup db.vulns k) ∧
      (storeVulnerabilities db vs tc).1.rems = db.rems ∧
      (keys ((storeVulnerabilityRemediations db rs).1.rems)).Nodup ∧
      alookup ((storeVulnerabilityRemediations db rs).1.rems) k =
        (match lastWith rs k with
         | some r => some (Json.obj r)
         | none => alookup db.rems k) ∧
      (storeVulnerabilityRemediations db rs).1.vulns = db.vulns :=
  ⟨store_vulns_nodup db vs tc hv, store_vulns_lookup db vs tc k,
   store_vulns_rems_eq db vs tc, store_rems_nodup db rs hr,
   store_rems_lookup db rs k, store_rems_vulns_eq db rs⟩

/-- Witness for C3 on the empty database and one-record lists. -/
theorem claim_C3_witness :
    ((keys DB.empty.vulns).Nodup ∧ (keys DB.empty.rems).Nodup) ∧
      ((keys ((storeVulnerabilities DB.empty [[("id", Json.str "a")]] true).1.vulns)).Nodup ∧
        alookup ((storeVulnerabilities DB.empty [[("id", Json.str "a")]] true).1.vulns) "\"a\"" =
          (match lastWith [[("id", Json.str "a")]] "\"a\"" with
           | some r => some (rowOf r)
           | none => alookup DB.empty.vulns "\"a\"") ∧
        (storeVulnerabilities DB.empty [[("id", Json.str "a")]] true).1.rems = DB.empty.rems ∧
        (keys ((storeVulnerabilityRemediations DB.empty [[("id", Json.str "b")]]).1.rems)).Nodup ∧
        alookup ((storeVulnerabilityRemediations DB.empty [[("id", Json.str "b")]]).1.rems) "\"a\"" =
          (match lastWith [[("id", Json.str "b")]] "\"a\"" with
           | some r => some (Json.obj r)
           | none => alookup DB.empty.rems "\"a\"") ∧
        (storeVulnerabilityRemediations DB.empty [[("id", Json.str "b")]]).1.vulns =
          DB.empty.vulns) :=
  ⟨⟨by decide, by decide⟩,
    claim_C3 DB.empty [[("id", Json.str "a")]] [[("id", Json.str "b")]] true "\"a\""
      (by decide) (by decide)⟩

/-- Claim C4: inside one call the store re-queries per record sequentially,
so right after a record is processed its row is already the written one —
a duplicate id later in the same batch is classified against it, not against
the call-start table; concretely, storing `[r, r]` into an empty database
yields `new = 1` and a single `discovered` history row rather than two. -/
theorem claim_C4 (tc : Bool) (db : DB) (c : Counts) (r1 : Rec) (k : String)
    (h1 : recKey r1 = some k) :
    alookup (storeVulnStep tc (db, c) r1).1.vulns k = some (rowOf r1) ∧
      (storeVulnerabilities DB.empty
          [[("id", Json.str "d")], [("id", Json.str "d")]] true).2.new = 1 ∧
      (storeVulnerabilities DB.empty
          [[("id", Json.str "d")], [("id", Json.str "d")]] true).1.history =
        [⟨"\"d\"", "discovered"⟩] := by
  refine ⟨?_, by decide, by decide⟩
  rw [storeVulnStep_eq tc db c r1 k h1]
  exact alookup_upsert_self db.vulns k (rowOf r1)

/-- Witness for C4 at a concrete record. -/
theorem claim_C4_witness :
    recKey [("id", Json.str "d")] = some "\"d\"" ∧
      (alookup (storeVulnStep true (DB.empty, ⟨0, 0, 0⟩) [("id", Json.str "d")]).1.vulns "\"d\"" =
          some (rowOf [("id", Json.str "d")]) ∧
        (storeVulnerabilities DB.empty
            [[("id", Json.str "d")], [("id", Json.str "d")]] true).2.new = 1 ∧
        (storeVulnerabilities DB.empty
            [[("id", Json.str "d")], [("id", Json.str "d")]] true).1.history =
          [⟨"\"d\"", "discovered"⟩]) :=
  ⟨by decide, claim_C4 true DB.empty ⟨0, 0, 0⟩ [("id", Json.str "d")] "\"d\"" (by decide)⟩

/-- Claim C5: storing a record fully replaces its DataElement set — the
stored set depends only on the new payload — and on the claim's example
payload the stored paths (and serialized values) are exactly the claimed
ones. -/
theorem claim_C5 (tc : Bool) (db : DB) (c : Counts) (r : Rec) (k : String)
    (h : recKey r = some k) :
    alookup (storeVulnStep tc (db, c) r).1.dataElements (deKey "vulnerability" k) =
        some (dataElementsFor (Json.obj r)) ∧
      (dataElementsFor
          (Json.obj [("a", Json.arr [Json.num 1, Json.obj [("b", Json.num 2)]])])).map
          Prod.fst =
        ["__root__", "a", "a[0]", "a[1]", "a[1].b"] ∧
      dataElementsFor
          (Json.obj [("a", Json.arr [Json.num 1, Json.obj [("b", Json.num 2)]])]) =
        [("__root__", "\x7b\"a\": [1, \x7b\"b\": 2\x7d]\x7d"),
         ("a", "[1, \x7b\"b\": 2\x7d]"), ("a[0]", "1"), ("a[1]", "\x7b\"b\": 2\x7d"),
         ("a[1].b", "2")] := by
  refine ⟨?_, by decide, by decide⟩
  rw [storeVulnStep_eq tc db c r k h]
  exact alookup_upsert_self db.dataElements (deKey "vulnerability" k)
    (dataElementsFor (Json.obj r))

/-- Witness for C5 at a concrete record. -/
theorem claim_C5_witness :
    recKey [("id", Json.str "e")] = some "\"e\"" ∧
      (alookup (storeVulnStep true (DB.empty, ⟨0, 0, 0⟩) [("id", Json.str "e")]).1.dataElements
          (deKey "vulnerability" "\"e\"") =
          some (dataElementsFor (Json.obj [("id", Json.str "e")])) ∧
        (dataElementsFor
            (Json.obj [("a", Json.arr [Json.num 1, Json.obj [("b", Json.num 2)]])])).map
            Prod.fst =
          ["__root__", "a", "a[0]", "a[1]", "a[1].b"] ∧
        dataElementsFor
            (Json.obj [("a", Json.arr [Json.num 1, Json.obj [("b", Json.num 2)]])]) =
          [("__root__", "\x7b\"a\": [1, \x7b\"b\": 2\x7d]\x7d"),
           ("a", "[1, \x7b\"b\": 2\x7d]"), ("a[0]", "1"), ("a[1]", "\x7b\"b\": 2\x7d"),
           ("a[1].b", "2")]) :=
  ⟨by decide, claim_C5 true DB.empty ⟨0, 0, 0⟩ [("id", Json.str "e")] "\"e\"" (by decide)⟩

end VantaVuln

namespace VantaVuln

/-- Claim C6: on a 429 response the fetch loop logs one sleep of the
`Retry-After` value (60 when the header is absent) and re-issues the request
with the cursor unchanged, adding no records and invoking no callback; on
the concrete script "429 once, then 200", the page's records appear exactly
once, the callback fires exactly once, both requests carry the same cursor,
and exactly one extra delay was taken. -/
theorem claim_C6 (fuel : Nat) (cursor : Option String) (retryAfter : Option Nat)
    (rest : List PageResp) (tr : FetchTrace) :
    fetchGo (fuel + 1) cursor (PageResp.rate retryAfter :: rest) tr =
        fetchGo fuel cursor rest
          { tr with
            requestCursors := tr.requestCursors ++ [sentCursor cursor]
            rateSleeps := tr.rateSleeps ++ [retryAfter.getD 60] } ∧
      getVulnerabilities 2
          [PageResp.rate none, PageResp.ok [[("id", Json.str "p")]] false none] =
        some ⟨[[("id", Json.str "p")]], [[[("id", Json.str "p")]]], [none, none], [60]⟩ :=
  ⟨rfl, rfl⟩

/-- Claim C7: the coordinator appends each incoming batch and, once 100 or
more records are buffered, submits exactly the oldest 100 as one job and
keeps the remainder; the final flush submits whatever remains iff non-empty;
aggregated `total` is the sum over all submitted jobs; and any 250 records
fed one at a time yield jobs of sizes 100, 100 and 50 with aggregated
`total = 250`. -/
theorem claim_C7 (bs : List (List Rec)) (hlen : bs.length = 250)
    (hs : ∀ x ∈ bs, x.length = 1) :
    (∀ (c : Coord) (batch : List Rec),
        batchCallback c batch =
          if (c.buffer ++ batch).length ≥ 100 then
            ⟨(c.buffer ++ batch).drop 100, c.jobs ++ [(c.buffer ++ batch).take 100]⟩
          else ⟨c.buffer ++ batch, c.jobs⟩) ∧
      (∀ c : Coord,
        finalFlush c = if c.buffer.isEmpty then c else ⟨[], c.jobs ++ [c.buffer]⟩) ∧
      (∀ (db : DB) (jobs : List (List Rec)),
        (runJobs db jobs).2.total = (jobs.map List.length).sum) ∧
      (finalFlush (bs.foldl batchCallback ⟨[], []⟩)).jobs.map List.length =
        [100, 100, 50] ∧
      (runJobs DB.empty (finalFlush (bs.foldl batchCallback ⟨[], []⟩)).jobs).2.total =
        250 :=
  ⟨fun _ _ => rfl, fun _ => rfl, runJobs_total,
    (feed250_shape bs hlen hs).1, (feed250_shape bs hlen hs).2⟩

/-- Witness for C7: 250 one-record batches built from `List.range`. -/
theorem claim_C7_witness :
    (oneAtATime250.length = 250 ∧ ∀ x ∈ oneAtATime250, x.length = 1) ∧
      ((finalFlush (oneAtATime250.foldl batchCallback ⟨[], []⟩)).jobs.map List.length =
          [100, 100, 50] ∧
        (runJobs DB.empty
            (finalFlush (oneAtATime250.foldl batchCallback ⟨[], []⟩)).jobs).2.total =
          250) := by
  have hlen : oneAtATime250.length = 250 := by
    rw [oneAtATime250, List.length_map, List.length_range]
  have hs : ∀ x ∈ oneAtATime250, x.length = 1 := by
    intro x hx
    rw [oneAtATime250] at hx
    obtain ⟨i, hi, rfl⟩ := List.mem_map.mp hx
    rfl
  have h := claim_C7 oneAtATime250 hlen hs
  exact ⟨⟨hlen, hs⟩, h.2.2.2⟩

end VantaVuln

namespace VantaVuln

/-- Claim C8 fails as stated: a record whose severity is the lowercase
string "critical" is a case-insensitive member of the criterion set
["critical"], yet the filter excludes it (only the criterion side is
uppercased). -/
theorem claim_C8_counterexample :
    severityPass [[("severity", Json.str "critical")]] ["critical"] = [] ∧
      severityMemberCI [("severity", Json.str "critical")] ["critical"] = true :=
  ⟨rfl, by decide⟩

/-- Claim C8, amended: for a non-empty criterion list, the filter keeps
exactly the records whose raw severity value is a string equal — case
*sensitively* — to the `upper()` of some criterion entry (the comparison is
case-insensitive in the criterion only). -/
theorem claim_C8 (vulns : List Rec) (severity : List String) (v : Rec)
    (h : severity ≠ []) :
    v ∈ severityPass vulns severity ↔
      v ∈ vulns ∧ ∃ s, pyGet v "severity" = some (Json.str s) ∧
        s ∈ severity.map upStr := by
  unfold severityPass
  rw [if_neg (by simpa using h)]
  rw [List.mem_filter]
  constructor
  · rintro ⟨hmem, hpred⟩
    refine ⟨hmem, ?_⟩
    cases hp : pyGet v "severity" with
    | none => rw [hp] at hpred; simp at hpred
    | some jv =>
      cases jv with
      | str s =>
        refine ⟨s, rfl, ?_⟩
        rw [hp] at hpred
        simpa using hpred
      | null => rw [hp] at hpred; simp at hpred
      | bool b => rw [hp] at hpred; simp at hpred
      | num n => rw [hp] at hpred; simp at hpred
      | arr a => rw [hp] at hpred; simp at hpred
      | obj o => rw [hp] at hpred; simp at hpred
  · rintro ⟨hmem, s, hp, hs⟩
    refine ⟨hmem, ?_⟩
    rw [hp]
    simpa using hs

/-- Witness for the amended C8: an uppercase-severity record is kept for a
lowercase criterion. -/
theorem claim_C8_witness :
    (["critical"] ≠ ([] : List String)) ∧
      ([("severity", Json.str "CRITICAL")] ∈
          severityPass [[("severity", Json.str "CRITICAL")]] ["critical"] ↔
        [("severity", Json.str "CRITICAL")] ∈
            ([[("severity", Json.str "CRITICAL")]] : List Rec) ∧
          ∃ s, pyGet [("severity", Json.str "CRITICAL")] "severity" =
              some (Json.str s) ∧ s ∈ ["critical"].map upStr) :=
  ⟨by decide,
    claim_C8 [[("severity", Json.str "CRITICAL")]] ["critical"]
      [("severity", Json.str "CRITICAL")] (by decide)⟩

/-- Claim C9: under the retry wrapper, the computed delay before retry `n`
is `min(baseDelay * 2^n, maxDelay)`; with jitter on, the slept value is the
uniform draw and the uniform sampler is called on exactly `(0, that delay)`;
when every attempt fails the error of the final attempt (number
`maxRetries`) is returned after `maxRetries + 1` calls; and for any wrapped
function at most `maxRetries + 1` calls are made. -/
theorem claim_C9 {α ε : Type} (outcome : Nat → Except ε α) (errs : Nat → ε)
    (maxRetries : Nat) (baseDelay maxDelay : ℚ) (jitter : Bool)
    (draw : Nat → ℚ → ℚ) (hfail : ∀ n, outcome n = Except.error (errs n)) :
    retryRun outcome maxRetries baseDelay maxDelay jitter draw =
        (Except.error (errs maxRetries),
          ⟨maxRetries + 1,
            (List.range maxRetries).map
              (fun n => if jitter then draw n (min (baseDelay * 2 ^ n) maxDelay)
                        else min (baseDelay * 2 ^ n) maxDelay),
            if jitter then
              (List.range maxRetries).map
                (fun n => ((0 : ℚ), min (baseDelay * 2 ^ n) maxDelay))
            else []⟩) ∧
      ∀ g : Nat → Except ε α,
        (retryRun g maxRetries baseDelay maxDelay jitter draw).2.calls ≤
          maxRetries + 1 := by
  constructor
  · have h := retryAux_all_fail outcome errs hfail baseDelay maxDelay jitter draw
      maxRetries 0
    rw [retryRun, h, List.range_eq_range']
    simp
  · intro g
    simpa [retryRun] using retryAux_calls_le g baseDelay maxDelay jitter draw maxRetries 0

/-- Witness for C9: an always-failing function, two retries, full jitter. -/
theorem claim_C9_witness :
    (∀ n : Nat, (fun _ : Nat => (Except.error 0 : Except Nat Nat)) n =
        Except.error ((fun _ : Nat => (0 : Nat)) n)) ∧
      (retryRun (fun _ : Nat => (Except.error 0 : Except Nat Nat)) 2 1 60 true
            (fun _ d => d) =
          (Except.error ((fun _ : Nat => (0 : Nat)) 2),
            ⟨2 + 1,
              (List.range 2).map
                (fun n => if true then (fun _ d => d) n (min ((1 : ℚ) * 2 ^ n) 60)
                          else min ((1 : ℚ) * 2 ^ n) 60),
              if true then
                (List.range 2).map (fun n => ((0 : ℚ), min ((1 : ℚ) * 2 ^ n) 60))
              else []⟩) ∧
        ∀ g : Nat → Except Nat Nat,
          (retryRun g 2 1 60 true (fun _ d => d)).2.calls ≤ 2 + 1) :=
  ⟨fun _ => rfl,
    claim_C9 (fun _ => Except.error 0) (fun _ => 0) 2 1 60 true (fun _ d => d)
      (fun _ => rfl)⟩

/-- Claim C10: a record with a missing or empty id is skipped entirely — the
step leaves the database and every counter unchanged — while the returned
`total` and the appended SyncRun row count the full input length, so the
classified counters can sum to strictly less than `total`. -/
theorem claim_C10 (db : DB) (c : Counts) (tc : Bool) (r : Rec) (vs : List Rec)
    (h : pyGet r "id" = none ∨ pyGet r "id" = some (Json.str "")) :
    storeVulnStep tc (db, c) r = (db, c) ∧
      (storeVulnerabilities db vs tc).2.total = vs.length ∧
      (storeVulnerabilities db vs tc).1.syncHistory =
        db.syncHistory ++
          [⟨vs.length, (storeVulnerabilities db vs tc).2.new,
            (storeVulnerabilities db vs tc).2.updated,
            (storeVulnerabilities db vs tc).2.remediated⟩] ∧
      (storeVulnerabilities DB.empty ([[]] : List Rec) true).2.new +
          (storeVulnerabilities DB.empty ([[]] : List Rec) true).2.updated +
          (storeVulnerabilities DB.empty ([[]] : List Rec) true).2.remediated <
        (storeVulnerabilities DB.empty ([[]] : List Rec) true).2.total := by
  refine ⟨?_, ?_, ?_, by decide⟩
  · apply storeVulnStep_skip
    unfold recKey
    rcases h with h | h <;> simp [h, truthy]
  · simp [storeVulnerabilities]
  · simp [storeVulnerabilities, fold_vulns_syncHistory]

/-- Witness for C10 at a record with no id field at all. -/
theorem claim_C10_witness :
    (pyGet [] "id" = none ∨ pyGet [] "id" = some (Json.str "")) ∧
      (storeVulnStep true (DB.empty, ⟨0, 0, 0⟩) [] = (DB.empty, ⟨0, 0, 0⟩) ∧
        (storeVulnerabilities DB.empty ([[]] : List Rec) true).2.total = ([[]] : List Rec).length ∧
        (storeVulnerabilities DB.empty ([[]] : List Rec) true).1.syncHistory =
          DB.empty.syncHistory ++
            [⟨([[]] : List Rec).length,
              (storeVulnerabilities DB.empty ([[]] : List Rec) true).2.new,
              (storeVulnerabilities DB.empty ([[]] : List Rec) true).2.updated,
              (storeVulnerabilities DB.empty ([[]] : List Rec) true).2.remediated⟩] ∧
        (storeVulnerabilities DB.empty ([[]] : List Rec) true).2.new +
            (storeVulnerabilities DB.empty ([[]] : List Rec) true).2.updated +
            (storeVulnerabilities DB.empty ([[]] : List Rec) true).2.remediated <
          (storeVulnerabilities DB.empty ([[]] : List Rec) true).2.total) :=
  ⟨Or.inl rfl, claim_C10 DB.empty ⟨0, 0, 0⟩ true [] ([[]] : List Rec) (Or.inl rfl)⟩

end VantaVuln
